import Mathlib

/-!
# Verification of the NBM text-bulletin parser (`parseNbmBulletin`)

This development is a shallow embedding, in Lean, of the TypeScript function
`parseNbmBulletin` (file `nbm-parser.ts`, the dual-product version supporting
the NBH and NBS products) together with its helpers `parseRow`,
`parseFixedWidthRow`, and the inline time-axis construction.

Modelling conventions:

* JavaScript strings are modelled as `List Char` (`Str`).
* JavaScript `number` values flowing through the parser are integers except for
  the visibility conversion `v / 10`, which is modelled in `ℚ`.  All values the
  claims mention (`6.0`, `5.5`, …) are exactly representable IEEE doubles, so on
  them the rational model agrees with JavaScript arithmetic.
* JavaScript `Date` objects are modelled as their time value: milliseconds
  since the Unix epoch, as `Int`.  The UTC accessors (`getUTCHours`,
  `getUTCFullYear`, `getUTCMonth`, `getUTCDate`) and `Date.UTC` are modelled
  from the ECMAScript specification using the standard civil-calendar
  algorithms (`civilFromDays` / `daysFromCivil`); `Date.UTC`'s remapping of
  years 0–99 to 1900–1999 is included.  ECMAScript's `TimeClip` (dates more
  than ±8.64e15 ms from the epoch become invalid) is not modelled; theorems
  about time values carry explicit range hypotheses where relevant.
* The regular expressions the source builds are modelled by executable
  matchers with full backtracking-existence semantics, specialised to the
  concrete patterns of the source.  The station identifier is interpolated
  into the pattern text by the source; treating its characters as literals is
  faithful exactly when the identifier consists of alphanumeric characters
  (no regex metacharacters), which the claims assume.
-/

/-- JavaScript strings, modelled as lists of characters. -/
abbrev Str := List Char

/-- The character class of JavaScript's `\s` (also the set trimmed by
`String.prototype.trim`): WhiteSpace ∪ LineTerminator per ECMA-262. -/
def isJsWs (c : Char) : Bool :=
  c == '\t' || c == '\n' || c.toNat == 0x0b || c.toNat == 0x0c || c == '\r' ||
  c == ' ' || c.toNat == 0xa0 || c.toNat == 0x1680 ||
  (0x2000 ≤ c.toNat && c.toNat ≤ 0x200a) ||
  c.toNat == 0x2028 || c.toNat == 0x2029 || c.toNat == 0x202f ||
  c.toNat == 0x205f || c.toNat == 0x3000 || c.toNat == 0xfeff

/-- The character class `[ \t]` used by the station-header pattern. -/
def isSpaceTab (c : Char) : Bool := c == ' ' || c == '\t'

/-- Decimal digit, the class `\d`. -/
def isDigit (c : Char) : Bool := '0' ≤ c && c ≤ '9'

/-- The class `[A-Z0-9]` of the section-end pattern. -/
def isUpperDigit (c : Char) : Bool := ('A' ≤ c && c ≤ 'Z') || ('0' ≤ c && c ≤ '9')

/-- Hexadecimal digit (for `parseInt`'s `0x` mode). -/
def isHexDigit (c : Char) : Bool :=
  isDigit c || ('a' ≤ c && c ≤ 'f') || ('A' ≤ c && c ≤ 'F')

/-- Value of a hexadecimal digit character. -/
def hexVal (c : Char) : Nat :=
  if isDigit c then c.toNat - 48
  else if 'a' ≤ c && c ≤ 'f' then c.toNat - 87
  else c.toNat - 55

/-- `String.prototype.trimStart`. -/
def jsTrimStart (s : Str) : Str := s.dropWhile isJsWs

/-- `String.prototype.trim` (both ends). -/
def jsTrim (s : Str) : Str :=
  ((s.dropWhile isJsWs).reverse.dropWhile isJsWs).reverse

/-- `str.split('\n')`: split at every newline, keeping empty pieces. -/
def splitNlGo (cur : Str) : Str → List Str
  | [] => [cur.reverse]
  | c :: rest =>
    if c == '\n' then cur.reverse :: splitNlGo [] rest
    else splitNlGo (c :: cur) rest

/-- `str.split('\n')`. -/
def splitNl (s : Str) : List Str := splitNlGo [] s

/-- Worker for `jsSplitWs`.  The state is `some cur` while inside a piece
(`cur` reversed) and `none` while consuming a whitespace run. -/
def splitWsGo : Option Str → Str → List Str
  | st, [] => [(st.getD []).reverse]
  | st, c :: rest =>
    if isJsWs c then
      match st with
      | some cur => cur.reverse :: splitWsGo none rest
      | none => splitWsGo none rest
    else
      splitWsGo (some (c :: st.getD [])) rest

/-- `str.split(/\s+/)`: split on maximal whitespace runs.  As in JavaScript,
a leading (resp. trailing) run produces a leading (resp. trailing) empty
piece, and the empty string yields `[""]`. -/
def jsSplitWs (s : Str) : List Str := splitWsGo (some []) s

/-- Digits consumed so far folded into a decimal value (`parseInt` body). -/
def decValGo (acc : Nat) : Str → Nat
  | [] => acc
  | c :: rest => if isDigit c then decValGo (acc * 10 + (c.toNat - 48)) rest else acc

/-- Longest decimal-digit run at the head of the string; `none` if there is
no digit (`parseInt` returns `NaN`). -/
def parseDecDigits : Str → Option Nat
  | [] => none
  | c :: rest => if isDigit c then some (decValGo (c.toNat - 48) rest) else none

/-- Hexadecimal analogue of `parseDecDigits`. -/
def hexValGo (acc : Nat) : Str → Nat
  | [] => acc
  | c :: rest => if isHexDigit c then hexValGo (acc * 16 + hexVal c) rest else acc

/-- Longest hexadecimal-digit run at the head of the string. -/
def parseHexDigits : Str → Option Nat
  | [] => none
  | c :: rest => if isHexDigit c then some (hexValGo (hexVal c) rest) else none

/-- Magnitude part of `parseInt` with unspecified radix: a leading `0x`/`0X`
selects base 16, otherwise base 10. -/
def parseUIntJS : Str → Option Nat
  | '0' :: 'x' :: r => parseHexDigits r
  | '0' :: 'X' :: r => parseHexDigits r
  | r => parseDecDigits r

/-- ECMAScript `parseInt(s)` (radix argument omitted), returning `none` for
`NaN`: strip whitespace, optional sign, then the longest valid digit run. -/
def parseIntJS (s : Str) : Option Int :=
  match s.dropWhile isJsWs with
  | '-' :: r => (parseUIntJS r).map (fun n => -(n : Int))
  | '+' :: r => (parseUIntJS r).map (fun n => (n : Int))
  | r => (parseUIntJS r).map (fun n => (n : Int))

/-- The token decoder the source repeats verbatim in `parseRow` and in both
branches of `parseFixedWidthRow`:
`const num = parseInt(v); if (isNaN(num) || num === -99 || v === 'NG') return null; return num;`. -/
def decodeTok (v : Str) : Option Int :=
  match parseIntJS v with
  | none => none
  | some n => if n = -99 || v == "NG".data then none else some n

/-- Global matches of `/\d{2}/g` over a line, each passed through `parseInt`
(the NBH `UTC` axis row): scan left to right, emitting a two-digit token and
advancing past it, otherwise advancing one character. -/
def d2tokens : Str → List Int
  | a :: b :: rest =>
    if isDigit a && isDigit b then
      ((10 * (a.toNat - 48) + (b.toNat - 48) : Nat) : Int) :: d2tokens rest
    else d2tokens (b :: rest)
  | _ => []

/-- Global matches of `/\d{2,3}/g` over a line, each passed through
`parseInt` (the NBS `FHR` axis row); greedy, so three digits are preferred. -/
def d23tokens : Str → List Int
  | a :: b :: c :: rest =>
    if isDigit a && isDigit b && isDigit c then
      ((100 * (a.toNat - 48) + 10 * (b.toNat - 48) + (c.toNat - 48) : Nat) : Int)
        :: d23tokens rest
    else if isDigit a && isDigit b then
      ((10 * (a.toNat - 48) + (b.toNat - 48) : Nat) : Int) :: d23tokens (c :: rest)
    else d23tokens (b :: c :: rest)
  | [a, b] =>
    if isDigit a && isDigit b then
      [((10 * (a.toNat - 48) + (b.toNat - 48) : Nat) : Int)]
    else []
  | _ => []

/-- The line-lookup loop shared by `parseRow` and `parseFixedWidthRow`:
first line `l` with `l.startsWith(tag) || l.startsWith(' ' + tag)`. -/
def rowDataFor (ls : List Str) (tag : Str) : Option Str :=
  match ls with
  | [] => none
  | l :: rest =>
    if tag.isPrefixOf l || (' ' :: tag).isPrefixOf l then some l
    else rowDataFor rest tag

/-- Space-delimited decoding of a data portion:
`d.split(/\s+/).map(v => …decodeTok…)`. -/
def wsSplitVals (d : Str) : List (Option Int) := (jsSplitWs d).map decodeTok

/-- `parseRow(prefix)` of the source: find the field row, drop the 4-character
tag area, trim, split on whitespace, decode each token. -/
def parseRowL (ls : List Str) (tag : Str) : List (Option Int) :=
  match rowDataFor ls tag with
  | none => []
  | some line => wsSplitVals (jsTrim (line.drop 4))

/-- Fixed-width chunking (width 3): consecutive 3-character slices, the last
possibly shorter. -/
def chunks3 : Str → List Str
  | [] => []
  | [a] => [[a]]
  | [a, b] => [[a, b]]
  | a :: b :: c :: rest => [a, b, c] :: chunks3 rest

/-- Fixed-width decoding of a data portion: each 3-character chunk is trimmed;
blank chunks are skipped (`continue`), others decoded. -/
def fixedChunkVals (d : Str) : List (Option Int) :=
  (chunks3 d).filterMap fun ch =>
    let t := jsTrim ch
    if t.isEmpty then none else some (decodeTok t)

/-- `/[-\d]{3}[-\d]{3}/.test(d)`: six consecutive characters each a digit or
a minus sign. -/
def hasAdjacent6 : Str → Bool
  | a :: b :: c :: d :: e :: f :: rest =>
    ((isDigit a || a == '-') && (isDigit b || b == '-') && (isDigit c || c == '-') &&
     (isDigit d || d == '-') && (isDigit e || e == '-') && (isDigit f || f == '-')) ||
    hasAdjacent6 (b :: c :: d :: e :: f :: rest)
  | _ => false

/-- The per-row encoding dispatch of `parseFixedWidthRow`: fixed-width when
the data portion contains no space character or matches the adjacent-groups
pattern, otherwise space-delimited. -/
def fixedRowDecode (d : Str) : List (Option Int) :=
  if !(d.any (· == ' ')) || hasAdjacent6 d then fixedChunkVals d
  else wsSplitVals d

/-- `parseFixedWidthRow(prefix)` of the source (width defaulted to 3): find
the field row, drop the 4-character tag area, trim the start, dispatch on the
encoding. -/
def parseFixedWidthRowL (ls : List Str) (tag : Str) : List (Option Int) :=
  match rowDataFor ls tag with
  | none => []
  | some line => fixedRowDecode (jsTrimStart (line.drop 4))

/-- Suffixes of `s` reachable by consuming zero or more characters of class
`cls` (backtracking states of `cls*` in a regex). -/
def classSuffixes (cls : Char → Bool) : Str → List Str
  | [] => [[]]
  | c :: rest => (c :: rest) :: (if cls c then classSuffixes cls rest else [])

/-- Suffixes of `s` reachable by consuming one or more characters of class
`cls` (backtracking states of `cls+`). -/
def plusSuffixes (cls : Char → Bool) : Str → List Str
  | [] => []
  | c :: rest => if cls c then classSuffixes cls rest else []

/-- The alternation `(?:NBM[^\n]*PROD|PROD)` at the head of `s`. -/
def matchProdAlt (prod : Str) (s : Str) : Bool :=
  ("NBM".data.isPrefixOf s &&
    (classSuffixes (· != '\n') (s.drop 3)).any (fun s4 => prod.isPrefixOf s4)) ||
  prod.isPrefixOf s

/-- The body of the station pattern
`[ \t]*STATION\s+(?:NBM[^\n]*PROD|PROD)` at the head of `s` (the `^` anchor
with the `m` flag is handled by the caller's scan). -/
def matchStationBody (station prod : Str) (s : Str) : Bool :=
  (classSuffixes isSpaceTab s).any fun s1 =>
    station.isPrefixOf s1 &&
      (plusSuffixes isJsWs (s1.drop station.length)).any (matchProdAlt prod)

/-- Index of the first (leftmost) match of the multiline-anchored station
pattern; `atLS` records whether the current position is a line start. -/
def findStationFrom (station prod : Str) : Bool → Str → Option Nat
  | atLS, [] =>
    if atLS && matchStationBody station prod [] then some 0 else none
  | atLS, c :: rest =>
    if atLS && matchStationBody station prod (c :: rest) then some 0
    else (findStationFrom station prod (c == '\n') rest).map (· + 1)

/-- `text.match(stationPattern).index` for
`new RegExp('^[ \\t]*' + station + '\\s+(?:NBM[^\\n]*' + PROD + '|' + PROD + ')', 'm')`. -/
def findStationIdx (station prod text : Str) : Option Nat :=
  findStationFrom station prod true text

/-- Consume exactly `k` characters of class `[A-Z0-9]`, returning the
remaining suffix. -/
def alnumChop : Nat → Str → Option Str
  | 0, s => some s
  | _ + 1, [] => none
  | k + 1, c :: rest => if isUpperDigit c then alnumChop k rest else none

/-- The section-end pattern `\n[ \t]*[A-Z0-9]{4,6}\s+(?:NBM[^\n]*PROD|PROD)`
at the head of `s`. -/
def matchEndBody (prod : Str) (s : Str) : Bool :=
  match s with
  | [] => false
  | c :: rest =>
    c == '\n' &&
      (classSuffixes isSpaceTab rest).any fun s1 =>
        ([alnumChop 4 s1, alnumChop 5 s1, alnumChop 6 s1].filterMap id).any fun s2 =>
          (plusSuffixes isJsWs s2).any (matchProdAlt prod)

/-- Index of the first match of the (unanchored) section-end pattern. -/
def findEndIdx (prod : Str) : Str → Option Nat
  | [] => none
  | c :: rest =>
    if matchEndBody prod (c :: rest) then some 0
    else (findEndIdx prod rest).map (· + 1)

/-- The two supported bulletin products. -/
inductive NbmProductType where
  | nbh : NbmProductType
  | nbs : NbmProductType
deriving DecidableEq

/-- `productType.toUpperCase()`: the product marker interpolated into both
patterns. -/
def productName : NbmProductType → Str
  | .nbh => "NBH".data
  | .nbs => "NBS".data

/-- The Station Section Locator stage: start index of the station's header
match, and the end index of its section.  Faithful to the source, including
the `slice(startIdx + 10)` offset for the end search and the JavaScript
truthiness test `endMatch?.index ? … : text.length` (an end match at relative
index 0 falls back to end-of-text). -/
def sectionBoundsOf (text station : Str) (prod : Str) : Option (Nat × Nat) :=
  match findStationIdx station prod text with
  | none => none
  | some startIdx =>
    let endIdx :=
      match findEndIdx prod (text.drop (startIdx + 10)) with
      | some i => if i = 0 then text.length else startIdx + 10 + i
      | none => text.length
    some (startIdx, endIdx)

/-- `stationSection.split('\n').filter(l => l.trim())`: the non-blank lines
of the located station section. -/
def sectionLines (text station : Str) (pt : NbmProductType) : Option (List Str) :=
  match sectionBoundsOf text station (productName pt) with
  | none => none
  | some (a, b) =>
    some ((splitNl ((text.take b).drop a)).filter fun l => !(jsTrim l).isEmpty)

/-- Consume one expected literal character. -/
def chopChar (c : Char) : Str → Option Str
  | [] => none
  | x :: r => if x == c then some r else none

/-- Consume exactly two decimal digits, returning their value. -/
def digit2v : Str → Option (Nat × Str)
  | a :: b :: r =>
    if isDigit a && isDigit b then some (10 * (a.toNat - 48) + (b.toNat - 48), r)
    else none
  | _ => none

/-- Consume exactly four decimal digits, returning their value. -/
def digit4v : Str → Option (Nat × Str)
  | a :: b :: c :: d :: r =>
    if isDigit a && isDigit b && isDigit c && isDigit d then
      some (1000 * (a.toNat - 48) + 100 * (b.toNat - 48) + 10 * (c.toNat - 48)
        + (d.toNat - 48), r)
    else none
  | _ => none

/-- Consume `\s+`.  In the date pattern `\s+` is always followed by a digit,
so greedy matching deterministically consumes the maximal whitespace run. -/
def wsPlusChop : Str → Option Str
  | [] => none
  | c :: r => if isJsWs c then some (r.dropWhile isJsWs) else none

/-- The tail of the header-date pattern after the month capture:
`\/(\d{2})\/(\d{4})\s+(\d{2})(\d{2})\s*UTC`.  Returns the five captures
(month, day, year, hour, minute) as the integers `parseInt` yields. -/
def dateTailFrom (mo : Nat) (s : Str) : Option (Int × Int × Int × Int × Int) := do
  let s1 ← chopChar '/' s
  let (da, s2) ← digit2v s1
  let s3 ← chopChar '/' s2
  let (yr, s4) ← digit4v s3
  let s5 ← wsPlusChop s4
  let (hh, s6) ← digit2v s5
  let (mi, s7) ← digit2v s6
  let s8 := s7.dropWhile isJsWs
  if "UTC".data.isPrefixOf s8 then some ((mo : Int), da, yr, hh, mi) else none

/-- The date pattern `(\d{1,2})\/(\d{2})\/(\d{4})\s+(\d{2})(\d{2})\s*UTC`
anchored at the head of `s`; the month capture greedily prefers two digits. -/
def dateAtPos : Str → Option (Int × Int × Int × Int × Int)
  | [] => none
  | a :: rest =>
    if isDigit a then
      match rest with
      | b :: r2 =>
        if isDigit b then
          match dateTailFrom (10 * (a.toNat - 48) + (b.toNat - 48)) r2 with
          | some caps => some caps
          | none => dateTailFrom (a.toNat - 48) rest
        else dateTailFrom (a.toNat - 48) rest
      | [] => dateTailFrom (a.toNat - 48) []
    else none

/-- `headerLine.match(dateRegex)`: first (leftmost) match of the date
pattern, returning its captures. -/
def findDateIn : Str → Option (Int × Int × Int × Int × Int)
  | [] => none
  | c :: rest =>
    match dateAtPos (c :: rest) with
    | some caps => some caps
    | none => findDateIn rest

/-- Era (400-year Gregorian cycle) of an epoch-day number.  (Int `/` is
Euclidean division, which is floor division for positive divisors.) -/
def eraOf (z : Int) : Int := (z + 719468) / 146097

/-- Day-of-era in `[0, 146096]` of an epoch-day number. -/
def doeOf (z : Int) : Nat := (z + 719468 - 146097 * eraOf z).toNat

/-- Year-of-era from a day-of-era: the candidate `doe / 365` is corrected
downward when its start-of-year day (365y + y/4 − y/100 + y/400) lies after
`doe` (estimate-and-correct form of the standard civil-from-days
computation). -/
def civilYoe (doe : Nat) : Nat :=
  if 365 * (doe / 365) + (doe / 365) / 4 - (doe / 365) / 100 + (doe / 365) / 400 ≤ doe
  then doe / 365 else doe / 365 - 1

/-- Day-of-year (March-based) from a day-of-era. -/
def civilDoy (doe : Nat) : Nat :=
  doe - (365 * civilYoe doe + civilYoe doe / 4 - civilYoe doe / 100)

/-- March-based month index in `[0, 11]` from a day-of-era. -/
def civilMp (doe : Nat) : Nat := (5 * civilDoy doe + 2) / 153

/-- Day-of-month in `[1, 31]` from a day-of-era. -/
def civilD (doe : Nat) : Nat := civilDoy doe - (153 * civilMp doe + 2) / 5 + 1

/-- Civil month in `[1, 12]` from a day-of-era. -/
def civilM (doe : Nat) : Nat :=
  if civilMp doe < 10 then civilMp doe + 3 else civilMp doe - 9

/-- Epoch-day number to civil `(year, month, day)` (proleptic Gregorian,
the decomposition ECMAScript's `getUTCFullYear/Month/Date` perform). -/
def civilFromDays (z : Int) : Int × Int × Int :=
  (400 * eraOf z + civilYoe (doeOf z) + (if civilM (doeOf z) ≤ 2 then 1 else 0),
   civilM (doeOf z), civilD (doeOf z))

/-- March-based year of a civil date (Jan/Feb belong to the previous
March-based year). -/
def dfcYY (y m : Int) : Int := y - (if m ≤ 2 then 1 else 0)

/-- Era of a civil date. -/
def dfcEra (y m : Int) : Int := dfcYY y m / 400

/-- Year-of-era of a civil date. -/
def dfcYoe (y m : Int) : Nat := (dfcYY y m - 400 * dfcEra y m).toNat

/-- March-based month index of a civil month. -/
def dfcMp (m : Int) : Nat := (if 2 < m then m - 3 else m + 9).toNat

/-- Civil `(year, month, day)` to epoch-day number (inverse of
`civilFromDays`; ECMAScript's `MakeDay` core).  `m` is the 1-based month. -/
def daysFromCivil (y m d : Int) : Int :=
  dfcEra y m * 146097
    + ((365 * dfcYoe y m + dfcYoe y m / 4 - dfcYoe y m / 100 : Nat) : Int)
    + (((153 * dfcMp m + 2) / 5 : Nat) : Int) + d - 1 - 719468

/-- ECMAScript `MakeDay(y, mo, d)` with 0-based month `mo` (rolls months
outside `[0, 11]` into the year). -/
def makeDay (y mo d : Int) : Int :=
  daysFromCivil (y + mo / 12) (mo % 12 + 1) 1 + d - 1

/-- ECMAScript `Date.UTC(y, mo, d, h, mi)` as a millisecond time value,
including the remapping of years 0–99 to 1900–1999.  (`TimeClip` is not
modelled; see the header comment.) -/
def jsDateUTC (y mo d h mi : Int) : Int :=
  let yr := if 0 ≤ y ∧ y ≤ 99 then 1900 + y else y
  makeDay yr mo d * 86400000 + h * 3600000 + mi * 60000

/-- Epoch-day number of a millisecond time value. -/
def dayNumberOf (t : Int) : Int := t / 86400000

/-- `Date.prototype.getUTCFullYear`. -/
def getUTCFullYear (t : Int) : Int := (civilFromDays (dayNumberOf t)).1

/-- `Date.prototype.getUTCMonth` (0-based). -/
def getUTCMonth (t : Int) : Int := (civilFromDays (dayNumberOf t)).2.1 - 1

/-- `Date.prototype.getUTCDate`. -/
def getUTCDate (t : Int) : Int := (civilFromDays (dayNumberOf t)).2.2

/-- `Date.prototype.getUTCHours`. -/
def getUTCHours (t : Int) : Int := t / 3600000 % 24

/-- The NBH absolute-hour time loop: `currentDate`/`prevHour` walk with the
day-rollover test `hour < prevHour`, each instant rebuilt from the current
date's UTC components with minute 0. -/
def absTimesGo : Int → Int → List Int → List Int
  | _, _, [] => []
  | cd, prev, h :: rest =>
    let cd2 := if h < prev then cd + 86400000 else cd
    jsDateUTC (getUTCFullYear cd2) (getUTCMonth cd2) (getUTCDate cd2) h 0
      :: absTimesGo cd2 h rest

/-- Absolute-mode axis times (`isForecastHourRelative = false`). -/
def absTimes (base : Int) (hs : List Int) : List Int :=
  absTimesGo base (getUTCHours base) hs

/-- Relative-mode axis times (`isForecastHourRelative = true`):
`baseTime.getTime() + fhr * 60 * 60 * 1000`. -/
def relTimes (base : Int) (fs : List Int) : List Int :=
  fs.map fun f => base + f * 3600000

/-- Specification form of the absolute-mode walk, used in proofs: the day
number advances by one exactly when the hour token decreases, and each
instant is that day's start plus the token hour. -/
def expectedAbs (D prev : Int) : List Int → List Int
  | [] => []
  | h :: rest =>
    (86400000 * (if h < prev then D + 1 else D) + h * 3600000)
      :: expectedAbs (if h < prev then D + 1 else D) h rest

/-- The axis-marker scan over `lines[1…]`: the first trimmed line starting
with `FHR` (relative tokens, `\d{2,3}`) or `UTC` (absolute tokens, `\d{2}`)
decides the mode; returns `none` when no marker line exists (in the source,
`forecastHours` then stays empty). -/
def axisScan : List Str → Option (Bool × List Int)
  | [] => none
  | l :: rest =>
    let t := jsTrim l
    if "FHR".data.isPrefixOf t then some (true, d23tokens t)
    else if "UTC".data.isPrefixOf t then some (false, d2tokens t)
    else axisScan rest

/-- The axis tokens (`forecastHours`), empty when no marker line exists. -/
def axisTokensOf (ls : List Str) : List Int :=
  match axisScan (ls.drop 1) with
  | none => []
  | some (_, t) => t

/-- Wind-direction normalization `v => v !== null ? v * 10 : null`. -/
def normWdrV : Option Int → Option Int
  | none => none
  | some v => some (v * 10)

/-- Ceiling normalization: `888` and `-88` (unlimited) become null, other
values are scaled by 100. -/
def normCigV : Option Int → Option Int
  | none => none
  | some v => if v = 888 ∨ v = -88 then none else some (v * 100)

/-- Visibility normalization `v => v !== null ? v / 10 : null` (exact
division, in `ℚ`). -/
def normVisV : Option Int → Option ℚ
  | none => none
  | some v => some ((v : ℚ) / 10)

/-- The parser's result record (`NbmParsedData`); times are millisecond
UTC instants. -/
structure NbmParsedData where
  station : Str
  times : List Int
  wdr : List (Option Int)
  wsp : List (Option Int)
  gst : List (Option Int)
  tmp : List (Option Int)
  dpt : List (Option Int)
  sky : List (Option Int)
  cig : List (Option Int)
  vis : List (Option ℚ)
  pop : List (Option Int)
deriving DecidableEq

/-- Assembly of the result once all failure checks passed: the time axis,
the nine field rows, the ceiling/visibility/direction unit conversions and
the P01→P06 precipitation fallback, exactly as in the source's tail. -/
def buildResult (station : Str) (ls : List Str) (baseTime : Int) (rel : Bool)
    (toks : List Int) : NbmParsedData :=
  let pop1 := parseRowL ls "P01".data
  { station := station
    times := if rel then relTimes baseTime toks else absTimes baseTime toks
    wdr := (parseRowL ls "WDR".data).map normWdrV
    wsp := parseRowL ls "WSP".data
    gst := parseRowL ls "GST".data
    tmp := parseRowL ls "TMP".data
    dpt := parseRowL ls "DPT".data
    sky := parseRowL ls "SKY".data
    cig := (parseFixedWidthRowL ls "CIG".data).map normCigV
    vis := (parseFixedWidthRowL ls "VIS".data).map normVisV
    pop := if pop1.isEmpty then parseRowL ls "P06".data else pop1 }

/-- `parseNbmBulletin(text, station, productType)`: the full parser.  The
failure cascade mirrors the source's early returns: no station match;
fewer than 3 non-blank section lines; no issuance date in the header line;
an empty forecast-hour token list. -/
def parseNbmBulletin (text station : Str) (pt : NbmProductType) :
    Option NbmParsedData :=
  match sectionLines text station pt with
  | none => none
  | some ls =>
    if ls.length < 3 then none
    else
      match findDateIn (ls.headD []) with
      | none => none
      | some (mo, da, yr, hh, mi) =>
        match axisScan (ls.drop 1) with
        | none => none
        | some (rel, toks) =>
          if toks.isEmpty then none
          else some (buildResult station ls (jsDateUTC yr (mo - 1) da hh mi) rel toks)

/-- Alphanumeric character (the station-identifier precondition of the
claims: such characters are regex literals, so interpolating them into the
pattern source is safe and literal). -/
def isAlnumChar (c : Char) : Bool :=
  ('A' ≤ c && c ≤ 'Z') || ('a' ≤ c && c ≤ 'z') || isDigit c

/-- A station identifier of 4–6 alphanumeric characters. -/
def validStationB (s : Str) : Bool :=
  (4 ≤ s.length && s.length ≤ 6) && s.all isAlnumChar

/-- Two-station bulletin whose first header line is exactly 10 characters,
placing the newline before the second header at offset `startIdx + 10`. -/
def c1text : Str := "KFRG   NBH\nKJFK   NBH 2/05/2026  0700 UTC\n UTC  08 09\n TMP  10 11".data

/-- Bulletin with a 3-token axis but a 2-token temperature row. -/
def c4text : Str := "KFRG   NBH 2/05/2026  0700 UTC\n UTC  08 09 10\n TMP  10 11".data

/-- Minimal well-formed NBH bulletin (2-token axis, one field row). -/
def twText : Str := "KFRG   NBH 2/05/2026  0700 UTC\n UTC  08 09\n TMP  10 11".data

/-- Its non-blank section lines. -/
def twLines : List Str :=
  ["KFRG   NBH 2/05/2026  0700 UTC".data, " UTC  08 09".data, " TMP  10 11".data]

/-- Its parse result (issuance 2026-02-05T07:00Z = 1770274800000 ms). -/
def twResult : NbmParsedData :=
  buildResult "KFRG".data twLines 1770274800000 false [8, 9]

/-- NBH bulletin with only a `P06` precipitation row. -/
def c8text : Str := "KFRG   NBH 2/05/2026  0700 UTC\n UTC  08 09\n P06   7  8".data

/-- Its non-blank section lines. -/
def c8lines : List Str :=
  ["KFRG   NBH 2/05/2026  0700 UTC".data, " UTC  08 09".data, " P06   7  8".data]

/-- Its parse result. -/
def c8result : NbmParsedData :=
  buildResult "KFRG".data c8lines 1770274800000 false [8, 9]

/-- NBS bulletin whose `FHR` offsets decrease. -/
def c9text : Str := "KFRG   NBS 2/05/2026  0700 UTC\n FHR  12 06\n TMP  10 11".data

/-- A fixed-width row whose data portion contains a tab: it contains
whitespace but no space character. -/
def c6line : Str := " CIG -88\t210".data

/-- Its data portion as `parseFixedWidthRow` computes it. -/
def c6data : Str := jsTrimStart (c6line.drop 4)

/-- The mode-selection rule in the words of the claim: fixed-width exactly
when the data portion contains no whitespace, or matches adjacent
signed/unsigned 3-character groups. -/
def claimSelectsFixed (d : Str) : Bool := !(d.any isJsWs) || hasAdjacent6 d

theorem absTimesGo_length (hs : List Int) :
    ∀ cd prev, (absTimesGo cd prev hs).length = hs.length := by
  induction hs with
  | nil => intro cd prev; rfl
  | cons h rest ih =>
    intro cd prev
    simp only [absTimesGo, List.length_cons, ih]

theorem parseNbmBulletin_inv {text station : Str} {pt : NbmProductType}
    {r : NbmParsedData} (h : parseNbmBulletin text station pt = some r) :
    ∃ ls mo da yr hh mi rel toks,
      sectionLines text station pt = some ls ∧ ¬ ls.length < 3 ∧
      findDateIn (ls.headD []) = some (mo, da, yr, hh, mi) ∧
      axisScan (ls.drop 1) = some (rel, toks) ∧ toks ≠ [] ∧
      r = buildResult station ls (jsDateUTC yr (mo - 1) da hh mi) rel toks := by
  unfold parseNbmBulletin at h
  rcases hsec : sectionLines text station pt with _ | ls
  · simp only [hsec] at h
    exact Option.noConfusion h
  · simp only [hsec] at h
    by_cases hlen : ls.length < 3
    · rw [if_pos hlen] at h
      exact Option.noConfusion h
    · rw [if_neg hlen] at h
      rcases hdate : findDateIn (ls.headD []) with _ | ⟨mo, da, yr, hh, mi⟩
      · simp only [hdate] at h
        exact Option.noConfusion h
      · simp only [hdate] at h
        rcases haxis : axisScan (ls.drop 1) with _ | ⟨rel, toks⟩
        · simp only [haxis] at h
          exact Option.noConfusion h
        · simp only [haxis] at h
          by_cases htoks : toks.isEmpty
          · rw [if_pos htoks] at h
            exact Option.noConfusion h
          · rw [if_neg htoks] at h
            refine ⟨ls, mo, da, yr, hh, mi, rel, toks, rfl, hlen, hdate, haxis,
              ?_, (Option.some.inj h).symm⟩
            simp only [List.isEmpty_iff] at htoks
            exact htoks

theorem parse_build {text station : Str} {pt : NbmProductType} {r : NbmParsedData}
    {ls : List Str} (hp : parseNbmBulletin text station pt = some r)
    (hsec : sectionLines text station pt = some ls) :
    ∃ mo da yr hh mi rel toks,
      findDateIn (ls.headD []) = some (mo, da, yr, hh, mi) ∧
      axisScan (ls.drop 1) = some (rel, toks) ∧ toks ≠ [] ∧
      r = buildResult station ls (jsDateUTC yr (mo - 1) da hh mi) rel toks := by
  obtain ⟨ls', mo, da, yr, hh, mi, rel, toks, hsec', hlen, hdate, haxis, hne, hr⟩ :=
    parseNbmBulletin_inv hp
  obtain rfl : ls = ls' := Option.some.inj (hsec.symm.trans hsec')
  exact ⟨mo, da, yr, hh, mi, rel, toks, hdate, haxis, hne, hr⟩

/-- C1: on a two-station bulletin whose first header line is exactly 10
characters long, the next same-product header matches the end pattern at
relative index 0, which the source's JavaScript-truthiness test
`endMatch?.index ? … : text.length` treats as "no next header": the located
section runs to end-of-text and includes the second station's lines, contrary
to the locator contract (and to the source's own comment "next station or end
of file"). -/
theorem c1_section_end_truthiness :
    sectionBoundsOf c1text "KFRG".data "NBH".data = some (0, 65) ∧
    findEndIdx "NBH".data (c1text.drop 10) = some 0 ∧
    c1text.length = 65 := by decide

/-- C4 counterexample: a successful parse whose temperature series has
length 2 while the axis (and times) have length 3 — the series is neither
empty nor of axis length. -/
theorem c4_series_length_counterexample :
    (parseNbmBulletin c4text "KFRG".data .nbh).map
      (fun r => (r.times.length, r.tmp.length)) = some (3, 2) ∧
    ¬ ((2 : Nat) = 0 ∨ (2 : Nat) = 3) := by decide

/-- C4 (amended): for every successful parse, the times sequence has exactly
one instant per axis hour token, and each field series has the length of its
own decoded row (empty when the row is absent), unconstrained by the axis
length. -/
theorem c4_series_lengths (text station : Str) (pt : NbmProductType)
    (r : NbmParsedData) (ls : List Str) (hst : validStationB station = true)
    (hp : parseNbmBulletin text station pt = some r)
    (hsec : sectionLines text station pt = some ls) :
    r.times.length = (axisTokensOf ls).length ∧
    r.wdr.length = (parseRowL ls "WDR".data).length ∧
    r.wsp.length = (parseRowL ls "WSP".data).length ∧
    r.gst.length = (parseRowL ls "GST".data).length ∧
    r.tmp.length = (parseRowL ls "TMP".data).length ∧
    r.dpt.length = (parseRowL ls "DPT".data).length ∧
    r.sky.length = (parseRowL ls "SKY".data).length ∧
    r.cig.length = (parseFixedWidthRowL ls "CIG".data).length ∧
    r.vis.length = (parseFixedWidthRowL ls "VIS".data).length ∧
    r.pop.length = (if (parseRowL ls "P01".data).isEmpty
      then parseRowL ls "P06".data else parseRowL ls "P01".data).length := by
  obtain ⟨mo, da, yr, hh, mi, rel, toks, hdate, haxis, hne, rfl⟩ := parse_build hp hsec
  have htok : axisTokensOf ls = toks := by
    unfold axisTokensOf
    rw [haxis]
  refine ⟨?_, by simp [buildResult], by simp [buildResult], by simp [buildResult],
    by simp [buildResult], by simp [buildResult], by simp [buildResult],
    by simp [buildResult], by simp [buildResult], by simp [buildResult]⟩
  rw [htok]
  by_cases hrel : rel
  · simp [buildResult, hrel, relTimes]
  · simp [buildResult, hrel, absTimes, absTimesGo_length]

/-- Witness for C4's amended theorem at a concrete bulletin. -/
theorem c4_series_lengths_witness :
    parseNbmBulletin twText "KFRG".data .nbh = some twResult ∧
    twResult.times.length = (axisTokensOf twLines).length ∧
    twResult.tmp.length = (parseRowL twLines "TMP".data).length := by
  have h := c4_series_lengths twText "KFRG".data .nbh twResult twLines
    (by decide) (by decide) (by decide)
  exact ⟨by decide, h.1, h.2.2.2.2.1⟩

/-- C5: the per-field unit conversions — direction ×10, ceiling sentinel
(888 and −88 → missing) then ×100, visibility ÷10, with missings preserved —
and the fact that the parser passes speed, gust, temperature, dew point, sky
cover and precipitation probability (the selected P01/P06 row) through as the
raw decoded rows, unscaled, while direction, ceiling and visibility go
through the conversion maps. -/
theorem c5_unit_normalization :
    normWdrV (some 34) = some 340 ∧ normWdrV (some 1) = some 10 ∧
    (∀ v : Int, normWdrV (some v) = some (v * 10)) ∧ normWdrV none = none ∧
    normCigV (some 888) = none ∧ normCigV (some (-88)) = none ∧
    normCigV (some 210) = some 21000 ∧
    (∀ v : Int, v ≠ 888 → v ≠ -88 → normCigV (some v) = some (v * 100)) ∧
    normCigV none = none ∧
    normVisV (some 60) = some 6 ∧ normVisV (some 55) = some (11 / 2 : ℚ) ∧
    (∀ v : Int, normVisV (some v) = some ((v : ℚ) / 10)) ∧ normVisV none = none ∧
    (∀ text station pt r ls, validStationB station = true →
      parseNbmBulletin text station pt = some r →
      sectionLines text station pt = some ls →
      r.wsp = parseRowL ls "WSP".data ∧ r.gst = parseRowL ls "GST".data ∧
      r.tmp = parseRowL ls "TMP".data ∧ r.dpt = parseRowL ls "DPT".data ∧
      r.sky = parseRowL ls "SKY".data ∧
      r.pop = (if (parseRowL ls "P01".data).isEmpty then parseRowL ls "P06".data
        else parseRowL ls "P01".data) ∧
      r.wdr = (parseRowL ls "WDR".data).map normWdrV ∧
      r.cig = (parseFixedWidthRowL ls "CIG".data).map normCigV ∧
      r.vis = (parseFixedWidthRowL ls "VIS".data).map normVisV) := by
  refine ⟨by decide, by decide, fun v => rfl, rfl, by decide, by decide, by decide,
    ?_, rfl, by norm_num [normVisV], by norm_num [normVisV], fun v => rfl, rfl, ?_⟩
  · intro v h1 h2
    simp only [normCigV]
    rw [if_neg (by tauto)]
  · intro text station pt r ls hst hp hsec
    obtain ⟨mo, da, yr, hh, mi, rel, toks, hdate, haxis, hne, rfl⟩ := parse_build hp hsec
    exact ⟨rfl, rfl, rfl, rfl, rfl, rfl, rfl, rfl, rfl⟩

/-- Witness for C5 at concrete values and concrete parses, including the
unscaled precipitation-probability passthrough on a P06-only bulletin. -/
theorem c5_unit_normalization_witness :
    normCigV (some 5) = some 500 ∧
    twResult.wsp = parseRowL twLines "WSP".data ∧
    c8result.pop = (if (parseRowL c8lines "P01".data).isEmpty
      then parseRowL c8lines "P06".data else parseRowL c8lines "P01".data) := by
  obtain ⟨-, -, -, -, -, -, -, hcig, -, -, -, -, -, hpass⟩ := c5_unit_normalization
  refine ⟨hcig 5 (by decide) (by decide), ?_, ?_⟩
  · exact (hpass twText "KFRG".data .nbh twResult twLines (by decide) (by decide)
      (by decide)).1
  · exact (hpass c8text "KFRG".data .nbh c8result c8lines (by decide) (by decide)
      (by decide)).2.2.2.2.2.1

/-- C6 counterexample: a row data portion containing a tab contains
whitespace and does not match the adjacent-groups pattern, so the claim's
selection rule ("fixed-width exactly when no whitespace or adjacent groups")
prescribes space-splitting; the source tests only for the space character and
decodes the row fixed-width, yielding different values. -/
theorem c6_selection_counterexample :
    c6data.any isJsWs = true ∧ hasAdjacent6 c6data = false ∧
    claimSelectsFixed c6data = false ∧
    parseFixedWidthRowL [c6line] "CIG".data = [some (-88), some 21, some 0] ∧
    wsSplitVals c6data = [some (-88), some 210] ∧
    parseFixedWidthRowL [c6line] "CIG".data ≠ wsSplitVals c6data := by decide

/-- C6 (amended): the fixed-width row `-88210220200` decodes to the same
values as the space-delimited row `-88 210 220 200` (before and hence after
ceiling normalization), and the decoder selects fixed-width mode exactly when
the data portion contains no space character (U+0020) or matches adjacent
signed/unsigned 3-character groups, otherwise space-splitting. -/
theorem c6_encoding_equivalence :
    parseFixedWidthRowL [" CIG -88210220200".data] "CIG".data =
      parseFixedWidthRowL [" CIG -88 210 220 200".data] "CIG".data ∧
    (parseFixedWidthRowL [" CIG -88210220200".data] "CIG".data).map normCigV =
      [none, some 21000, some 22000, some 20000] ∧
    (∀ d : Str, fixedRowDecode d =
      if !(d.any (· == ' ')) || hasAdjacent6 d then fixedChunkVals d
      else wsSplitVals d) := by
  exact ⟨by decide, by decide, fun d => rfl⟩

/-- C7: under both decoding strategies every token passes through
`decodeTok`, and a token parsing to exactly −99, or equal to the literal
marker `NG`, decodes to the explicit missing value (never a numeric zero),
before any unit conversion. -/
theorem c7_sentinel_propagation :
    (∀ v : Str, parseIntJS v = some (-99) ∨ v = "NG".data →
      decodeTok v = none ∧ decodeTok v ≠ some 0) ∧
    (∀ d : Str, wsSplitVals d = (jsSplitWs d).map decodeTok) ∧
    (∀ d : Str, fixedChunkVals d = (chunks3 d).filterMap fun ch =>
      if (jsTrim ch).isEmpty then none else some (decodeTok (jsTrim ch))) := by
  refine ⟨?_, fun d => rfl, fun d => rfl⟩
  intro v h
  have hd : decodeTok v = none := by
    rcases h with h | h
    · simp [decodeTok, h]
    · subst h
      decide
  exact ⟨hd, by simp [hd]⟩

/-- Witness for C7 at the two concrete sentinel tokens. -/
theorem c7_sentinel_propagation_witness :
    decodeTok "-99".data = none ∧ decodeTok "NG".data = none :=
  ⟨(c7_sentinel_propagation.1 "-99".data (Or.inl (by decide))).1,
   (c7_sentinel_propagation.1 "NG".data (Or.inr rfl)).1⟩

/-- C8: the precipitation-probability series is the decoded P01 row when
that is non-empty, otherwise the decoded P06 row. -/
theorem c8_pop_fallback (text station : Str) (pt : NbmProductType)
    (r : NbmParsedData) (ls : List Str) (hst : validStationB station = true)
    (hp : parseNbmBulletin text station pt = some r)
    (hsec : sectionLines text station pt = some ls) :
    (parseRowL ls "P01".data ≠ [] → r.pop = parseRowL ls "P01".data) ∧
    (parseRowL ls "P01".data = [] → r.pop = parseRowL ls "P06".data) := by
  obtain ⟨mo, da, yr, hh, mi, rel, toks, hdate, haxis, hne, rfl⟩ := parse_build hp hsec
  constructor
  · intro hne1
    simp [buildResult, List.isEmpty_iff, hne1]
  · intro he
    simp [buildResult, List.isEmpty_iff, he]

/-- Witness for C8: a bulletin with no P01 row but a P06 row; the result's
precipitation series carries the P06 values. -/
theorem c8_pop_fallback_witness :
    parseNbmBulletin c8text "KFRG".data .nbh = some c8result ∧
    c8result.pop = [some 7, some 8] := by
  have h := c8_pop_fallback c8text "KFRG".data .nbh c8result c8lines
    (by decide) (by decide) (by decide)
  exact ⟨by decide, (h.2 (by decide)).trans (by decide)⟩

/-- C10: for any bulletin text and product, and any 4–6-character
alphanumeric station identifier (under which the interpolated pattern is
regex-literal and the embedding is faithful), the parser totally evaluates to
either a failure (`none`) or a full parsed result. -/
theorem c10_interface_totality (text station : Str) (pt : NbmProductType)
    (hst : validStationB station = true) :
    parseNbmBulletin text station pt = none ∨
      ∃ r, parseNbmBulletin text station pt = some r := by
  cases hp : parseNbmBulletin text station pt with
  | none => exact Or.inl rfl
  | some r => exact Or.inr ⟨r, rfl⟩

/-- Witness for C10 on the empty bulletin. -/
theorem c10_interface_totality_witness :
    validStationB "KFRG".data = true ∧
      (parseNbmBulletin [] "KFRG".data .nbh = none ∨
        ∃ r, parseNbmBulletin [] "KFRG".data .nbh = some r) :=
  ⟨by decide, c10_interface_totality [] "KFRG".data .nbh (by decide)⟩

/-- C3: the parse fails (returns the null failure value, never a partial
result) exactly when one of the four documented conditions holds: station
header absent (StationNotFound), fewer than 3 non-blank section lines
(MalformedSection), no issuance date in the header line (MalformedHeader),
or zero axis hour tokens (EmptyAxis); on every other input a full result is
returned, and field-row contents never influence failure. -/
theorem c3_failure_taxonomy (text station : Str) (pt : NbmProductType)
    (hst : validStationB station = true) :
    parseNbmBulletin text station pt = none ↔
      (sectionLines text station pt = none ∨
       ∃ ls, sectionLines text station pt = some ls ∧
         (ls.length < 3 ∨
          (3 ≤ ls.length ∧ findDateIn (ls.headD []) = none) ∨
          (3 ≤ ls.length ∧ (∃ c, findDateIn (ls.headD []) = some c) ∧
            axisTokensOf ls = []))) := by
  constructor
  · intro h
    unfold parseNbmBulletin at h
    rcases hsec : sectionLines text station pt with _ | ls
    · exact Or.inl rfl
    · simp only [hsec] at h
      refine Or.inr ⟨ls, rfl, ?_⟩
      by_cases hlen : ls.length < 3
      · exact Or.inl hlen
      · rw [if_neg hlen] at h
        rcases hdate : findDateIn (ls.headD []) with _ | caps
        · exact Or.inr (Or.inl ⟨by omega, rfl⟩)
        · simp only [hdate] at h
          rcases caps with ⟨mo, da, yr, hh, mi⟩
          refine Or.inr (Or.inr ⟨by omega, ⟨_, rfl⟩, ?_⟩)
          unfold axisTokensOf
          rcases haxis : axisScan (ls.drop 1) with _ | ⟨rel, toks⟩
          · rfl
          · simp only [haxis] at h
            by_cases htoks : toks.isEmpty
            · simpa [List.isEmpty_iff] using htoks
            · rw [if_neg htoks] at h
              exact Option.noConfusion h
  · intro h
    unfold parseNbmBulletin
    rcases h with hnone | ⟨ls, hsec, hcond⟩
    · simp only [hnone]
    · simp only [hsec]
      rcases hcond with hlen | ⟨hge, hdate⟩ | ⟨hge, ⟨caps, hdate⟩, htoks⟩
      · rw [if_pos hlen]
      · rw [if_neg (by omega)]
        simp only [hdate]
      · rw [if_neg (by omega)]
        rcases caps with ⟨mo, da, yr, hh, mi⟩
        simp only [hdate]
        unfold axisTokensOf at htoks
        rcases haxis : axisScan (ls.drop 1) with _ | ⟨rel, toks⟩
        · simp [haxis]
        · rw [haxis] at htoks
          have htoks2 : toks = [] := htoks
          simp [haxis, htoks2]

/-- Witness for C3: the empty bulletin fails via the StationNotFound
condition. -/
theorem c3_failure_taxonomy_witness :
    parseNbmBulletin [] "KFRG".data .nbh = none :=
  (c3_failure_taxonomy [] "KFRG".data .nbh (by decide)).mpr (Or.inl (by decide))

theorem civilYoe_char (doe : Nat) (h : doe < 146097) :
    365 * civilYoe doe + civilYoe doe / 4 - civilYoe doe / 100 ≤ doe ∧
    civilYoe doe ≤ 399 ∧
    doe - (365 * civilYoe doe + civilYoe doe / 4 - civilYoe doe / 100) ≤ 365 := by
  have key : ∀ q r : Nat, q ≤ 400 → r < 365 →
      (365 * q + r ≤ 146096 →
        365 * q + q / 4 - q / 100 + q / 400 ≤ 365 * q + r →
        365 * q + q / 4 - q / 100 ≤ 365 * q + r ∧ q ≤ 399 ∧
          365 * q + r - (365 * q + q / 4 - q / 100) ≤ 365) ∧
      (¬ (365 * q + q / 4 - q / 100 + q / 400 ≤ 365 * q + r) → 1 ≤ q →
        365 * (q - 1) + (q - 1) / 4 - (q - 1) / 100 ≤ 365 * q + r ∧ q - 1 ≤ 399 ∧
          365 * q + r - (365 * (q - 1) + (q - 1) / 4 - (q - 1) / 100) ≤ 365) := by
    intro q r hq hr
    constructor
    · intro hd hc
      refine ⟨by omega, by omega, by omega⟩
    · intro hc h1
      refine ⟨by omega, by omega, by omega⟩
  have hq : doe / 365 ≤ 400 := by omega
  have hr : doe % 365 < 365 := by omega
  have hmod : doe = 365 * (doe / 365) + doe % 365 := by omega
  have K := key (doe / 365) (doe % 365) hq hr
  unfold civilYoe
  split_ifs with hc
  · have := K.1 (by omega) (by omega)
    omega
  · have h1 : 1 ≤ doe / 365 := by omega
    have := K.2 (by omega) h1
    omega

theorem civilDoy_le (doe : Nat) (h : doe < 146097) : civilDoy doe ≤ 365 := by
  have := civilYoe_char doe h
  unfold civilDoy
  omega

theorem civilMp_le (doe : Nat) (h : doe < 146097) : civilMp doe ≤ 11 := by
  have := civilDoy_le doe h
  unfold civilMp
  omega

theorem civilG_le (doe : Nat) : (153 * civilMp doe + 2) / 5 ≤ civilDoy doe := by
  unfold civilMp
  omega

theorem civilM_bounds (doe : Nat) (h : doe < 146097) :
    1 ≤ civilM doe ∧ civilM doe ≤ 12 := by
  have := civilMp_le doe h
  unfold civilM
  split_ifs <;> omega

theorem civilD_ge (doe : Nat) : 1 ≤ civilD doe := by
  unfold civilD
  omega

theorem civilMp_back (doe : Nat) (h : doe < 146097) :
    (if 2 < civilM doe then civilM doe - 3 else civilM doe + 9) = civilMp doe := by
  have := civilMp_le doe h
  unfold civilM
  split_ifs <;> omega

theorem civil_reconstruct (doe : Nat) (h : doe < 146097) :
    365 * civilYoe doe + civilYoe doe / 4 - civilYoe doe / 100
      + ((153 * civilMp doe + 2) / 5 + (civilD doe - 1)) = doe := by
  have h1 := civilYoe_char doe h
  have h2 := civilG_le doe
  unfold civilD
  unfold civilDoy at h2 ⊢
  omega

theorem civilYoe_le (doe : Nat) (h : doe < 146097) : civilYoe doe ≤ 399 :=
  (civilYoe_char doe h).2.1

theorem doeOf_spec (z : Int) :
    (doeOf z : Int) = z + 719468 - 146097 * eraOf z ∧ doeOf z < 146097 := by
  unfold doeOf eraOf
  omega

theorem dfc_core (z e : Int) (Y dd mp doe : Nat) (hY : Y ≤ 399) (hd : 1 ≤ dd)
    (hrec : 365 * Y + Y / 4 - Y / 100 + ((153 * mp + 2) / 5 + (dd - 1)) = doe)
    (hdoe : (doe : Int) = z + 719468 - 146097 * e) :
    (400 * e + (Y : Int)) / 400 * 146097
      + ((365 * ((400 * e + (Y : Int) - 400 * ((400 * e + (Y : Int)) / 400)).toNat)
          + ((400 * e + (Y : Int) - 400 * ((400 * e + (Y : Int)) / 400)).toNat) / 4
          - ((400 * e + (Y : Int) - 400 * ((400 * e + (Y : Int)) / 400)).toNat) / 100 : Nat) : Int)
      + (((153 * mp + 2) / 5 : Nat) : Int) + (dd : Int) - 1 - 719468 = z := by
  have hEra : (400 * e + (Y : Int)) / 400 = e := by omega
  rw [hEra]
  have hYoe : (400 * e + (Y : Int) - 400 * e).toNat = Y := by omega
  rw [hYoe]
  omega

theorem civilFromDays_roundtrip (z : Int) :
    1 ≤ (civilFromDays z).2.1 ∧ (civilFromDays z).2.1 ≤ 12 ∧
    daysFromCivil (civilFromDays z).1 (civilFromDays z).2.1
      (civilFromDays z).2.2 = z := by
  obtain ⟨hdoe1, hdoe2⟩ := doeOf_spec z
  obtain ⟨hm1, hm2⟩ := civilM_bounds (doeOf z) hdoe2
  have hyoe := civilYoe_le (doeOf z) hdoe2
  have hrec := civil_reconstruct (doeOf z) hdoe2
  have hback := civilMp_back (doeOf z) hdoe2
  have hd1 := civilD_ge (doeOf z)
  simp only [civilFromDays, daysFromCivil, dfcEra, dfcYY, dfcYoe, dfcMp]
  rcases le_or_lt (civilM (doeOf z)) 2 with hm | hm
  · rw [if_pos hm, if_pos (by exact_mod_cast hm : ((civilM (doeOf z) : Int)) ≤ 2),
      if_neg (by exact_mod_cast Nat.not_lt.mpr hm :
        ¬ (2 : Int) < (civilM (doeOf z) : Int))]
    refine ⟨by exact_mod_cast hm1, by exact_mod_cast hm2, ?_⟩
    rw [if_neg (Nat.not_lt.mpr hm)] at hback
    have hz : (400 * eraOf z + (civilYoe (doeOf z) : Int) + 1 - 1)
        = 400 * eraOf z + (civilYoe (doeOf z) : Int) := by ring
    rw [hz]
    have hmpe : (((civilM (doeOf z) : Int)) + 9).toNat = civilMp (doeOf z) := by omega
    rw [hmpe]
    exact dfc_core z (eraOf z) (civilYoe (doeOf z)) (civilD (doeOf z))
      (civilMp (doeOf z)) (doeOf z) hyoe hd1 hrec hdoe1
  · rw [if_neg (by omega : ¬ civilM (doeOf z) ≤ 2),
      if_neg (by exact_mod_cast Nat.not_le.mpr hm :
        ¬ ((civilM (doeOf z) : Int)) ≤ 2),
      if_pos (by exact_mod_cast hm : (2 : Int) < (civilM (doeOf z) : Int))]
    refine ⟨by exact_mod_cast hm1, by exact_mod_cast hm2, ?_⟩
    rw [if_pos hm] at hback
    have hz : (400 * eraOf z + (civilYoe (doeOf z) : Int) + 0 - 0)
        = 400 * eraOf z + (civilYoe (doeOf z) : Int) := by ring
    rw [hz]
    have hmpe : (((civilM (doeOf z) : Int)) - 3).toNat = civilMp (doeOf z) := by omega
    rw [hmpe]
    exact dfc_core z (eraOf z) (civilYoe (doeOf z)) (civilD (doeOf z))
      (civilMp (doeOf z)) (doeOf z) hyoe hd1 hrec hdoe1

theorem civil_year100 (doe : Nat) (h1 : doe < 146097) (h2 : 36465 ≤ doe) :
    100 ≤ civilYoe doe + (if civilM doe ≤ 2 then 1 else 0) := by
  have hc := civilYoe_char doe h1
  have hmp := civilMp_le doe h1
  have hdoy : civilDoy doe
      = doe - (365 * civilYoe doe + civilYoe doe / 4 - civilYoe doe / 100) := rfl
  have hmpdef : civilMp doe = (5 * civilDoy doe + 2) / 153 := rfl
  unfold civilM
  split_ifs <;> omega

theorem civilYear_ge_100 (z : Int) (hlb : -683003 ≤ z) :
    100 ≤ (civilFromDays z).1 := by
  obtain ⟨hdoe1, hdoe2⟩ := doeOf_spec z
  unfold civilFromDays
  by_cases he : eraOf z = 0
  · have h2 : 36465 ≤ doeOf z := by omega
    have h3 := civil_year100 (doeOf z) hdoe2 h2
    split_ifs at h3 ⊢ <;> simp [he] <;> omega
  · have h1 : 1 ≤ eraOf z := by
      unfold eraOf at he ⊢
      omega
    split_ifs <;> omega

theorem daysFromCivil_d (y m d : Int) :
    daysFromCivil y m 1 + d - 1 = daysFromCivil y m d := by
  unfold daysFromCivil
  ring

theorem constructUTC_eq (cd h : Int) (hlb : -683003 ≤ dayNumberOf cd) :
    jsDateUTC (getUTCFullYear cd) (getUTCMonth cd) (getUTCDate cd) h 0
      = 86400000 * dayNumberOf cd + h * 3600000 := by
  obtain ⟨hm1, hm2, hrt⟩ := civilFromDays_roundtrip (dayNumberOf cd)
  have hy := civilYear_ge_100 (dayNumberOf cd) hlb
  simp only [jsDateUTC, makeDay]
  rw [if_neg (by unfold getUTCFullYear; omega)]
  have h12 : getUTCMonth cd / 12 = 0 := by
    unfold getUTCMonth
    omega
  have h12b : getUTCMonth cd % 12 = getUTCMonth cd := by
    unfold getUTCMonth
    omega
  rw [h12, h12b]
  have hmm : getUTCMonth cd + 1 = (civilFromDays (dayNumberOf cd)).2.1 := by
    unfold getUTCMonth
    ring
  have hyy : getUTCFullYear cd + 0 = (civilFromDays (dayNumberOf cd)).1 := by
    unfold getUTCFullYear
    ring
  rw [hmm, hyy, daysFromCivil_d]
  unfold getUTCDate
  rw [hrt]
  ring

theorem dayNumberOf_add_day (cd : Int) :
    dayNumberOf (cd + 86400000) = dayNumberOf cd + 1 := by
  unfold dayNumberOf
  omega

theorem absTimesGo_eq (hs : List Int) :
    ∀ cd prev : Int, -683003 ≤ dayNumberOf cd →
      absTimesGo cd prev hs = expectedAbs (dayNumberOf cd) prev hs := by
  induction hs with
  | nil => intro cd prev hlb; rfl
  | cons h rest ih =>
    intro cd prev hlb
    simp only [absTimesGo, expectedAbs]
    by_cases hc : h < prev
    · simp only [if_pos hc]
      have hd : dayNumberOf (cd + 86400000) = dayNumberOf cd + 1 :=
        dayNumberOf_add_day cd
      have hlb2 : -683003 ≤ dayNumberOf (cd + 86400000) := by omega
      rw [constructUTC_eq (cd + 86400000) h hlb2, ih (cd + 86400000) h hlb2, hd]
    · simp only [if_neg hc]
      rw [constructUTC_eq cd h hlb, ih cd h hlb]

theorem expectedAbs_index (hs : List Int) :
    ∀ (D prev : Int) (i : Nat), (∀ x ∈ hs, 0 ≤ x ∧ x ≤ 23) → i + 1 < hs.length →
      (hs.getD (i + 1) 0 < hs.getD i 0 →
        dayNumberOf ((expectedAbs D prev hs).getD (i + 1) 0)
          = dayNumberOf ((expectedAbs D prev hs).getD i 0) + 1 ∧
        (expectedAbs D prev hs).getD (i + 1) 0
          = 86400000 * (dayNumberOf ((expectedAbs D prev hs).getD i 0) + 1)
            + hs.getD (i + 1) 0 * 3600000) ∧
      (hs.getD i 0 = 23 → hs.getD (i + 1) 0 = 0 →
        (expectedAbs D prev hs).getD (i + 1) 0
          = (expectedAbs D prev hs).getD i 0 + 3600000 ∧
        dayNumberOf ((expectedAbs D prev hs).getD (i + 1) 0)
          = dayNumberOf ((expectedAbs D prev hs).getD i 0) + 1) := by
  induction hs with
  | nil =>
    intro D prev i hb hi
    simp at hi
  | cons h1 rest ih =>
    intro D prev i hb hi
    cases i with
    | zero =>
      cases rest with
      | nil => simp at hi
      | cons h2 r2 =>
        have hb1 : 0 ≤ h1 ∧ h1 ≤ 23 := hb h1 (by simp)
        have hb2 : 0 ≤ h2 ∧ h2 ≤ 23 := hb h2 (by simp)
        simp only [expectedAbs, List.getD_cons_succ, List.getD_cons_zero]
        constructor
        · intro hlt
          rw [if_pos hlt]
          unfold dayNumberOf
          constructor
          · omega
          · omega
        · intro h23 h0
          rw [h23, h0]
          rw [if_pos (by omega)]
          rw [h23] at hb1
          unfold dayNumberOf
          constructor
          · omega
          · omega
    | succ k =>
      cases rest with
      | nil => simp at hi
      | cons h2 r2 =>
        have hb' : ∀ x ∈ h2 :: r2, 0 ≤ x ∧ x ≤ 23 := fun x hx =>
          hb x (List.mem_cons_of_mem h1 hx)
        have hi' : k + 1 < (h2 :: r2).length := by
          simpa using hi
        have H := ih (if h1 < prev then D + 1 else D) h1 k hb' hi'
        simpa [expectedAbs, List.getD_cons_succ] using H

theorem expectedAbs_chain (hs : List Int) :
    ∀ D prev : Int, (∀ x ∈ hs, 0 ≤ x ∧ x ≤ 23) →
      List.Chain' (· ≤ ·) (expectedAbs D prev hs) := by
  induction hs with
  | nil =>
    intro D prev hb
    simp [expectedAbs]
  | cons h1 rest ih =>
    intro D prev hb
    cases rest with
    | nil => simp [expectedAbs]
    | cons h2 r2 =>
      have hb1 : 0 ≤ h1 ∧ h1 ≤ 23 := hb h1 (by simp)
      have hb2 : 0 ≤ h2 ∧ h2 ≤ 23 := hb h2 (by simp)
      have hb' : ∀ x ∈ h2 :: r2, 0 ≤ x ∧ x ≤ 23 := fun x hx =>
        hb x (List.mem_cons_of_mem h1 hx)
      have hch := ih (if h1 < prev then D + 1 else D) h1 hb'
      simp only [expectedAbs] at hch ⊢
      rw [List.chain'_cons]
      refine ⟨?_, hch⟩
      by_cases hc : h2 < h1
      · rw [if_pos hc]
        have : (if h1 < prev then D + 1 else D) ≤ (if h1 < prev then D + 1 else D) := le_refl _
        omega
      · rw [if_neg hc]
        omega

theorem absTimes_eq (base : Int) (hs : List Int) (hlb : -683003 ≤ dayNumberOf base) :
    absTimes base hs = expectedAbs (dayNumberOf base) (getUTCHours base) hs := by
  unfold absTimes
  exact absTimesGo_eq hs base (getUTCHours base) hlb

/-- C2: on the absolute-hour (UTC) axis, whenever a token is strictly
smaller than its predecessor the running date advances by exactly one
calendar day and the instant is built on that next day at the token hour
with minute 0; consequently for consecutive tokens 23, 00 the second
instant is exactly one hour after the first and its day number is one
greater.  (Hypotheses: the issuance instant decomposes to a civil year
≥ 100, as every header-parsed issuance does, and the tokens are hours
00–23.) -/
theorem c2_hourly_rollover (base : Int) (hs : List Int)
    (hbase : -683003 ≤ dayNumberOf base)
    (hhs : ∀ x ∈ hs, 0 ≤ x ∧ x ≤ 23) (i : Nat) (hi : i + 1 < hs.length) :
    (absTimes base hs).length = hs.length ∧
    (hs.getD (i + 1) 0 < hs.getD i 0 →
      dayNumberOf ((absTimes base hs).getD (i + 1) 0)
        = dayNumberOf ((absTimes base hs).getD i 0) + 1 ∧
      (absTimes base hs).getD (i + 1) 0
        = 86400000 * (dayNumberOf ((absTimes base hs).getD i 0) + 1)
          + hs.getD (i + 1) 0 * 3600000) ∧
    (hs.getD i 0 = 23 → hs.getD (i + 1) 0 = 0 →
      (absTimes base hs).getD (i + 1) 0 = (absTimes base hs).getD i 0 + 3600000 ∧
      dayNumberOf ((absTimes base hs).getD (i + 1) 0)
        = dayNumberOf ((absTimes base hs).getD i 0) + 1) := by
  have hlen : (absTimes base hs).length = hs.length := by
    unfold absTimes
    exact absTimesGo_length hs base (getUTCHours base)
  rw [absTimes_eq base hs hbase]
  have H := expectedAbs_index hs (dayNumberOf base) (getUTCHours base) i hhs hi
  exact ⟨by rw [← absTimes_eq base hs hbase]; exact hlen, H.1, H.2⟩

/-- Witness for C2: issuance 2026-02-05T07:00Z, tokens 23 then 00. -/
theorem c2_hourly_rollover_witness :
    absTimes 1770274800000 [23, 0] = [1770332400000, 1770336000000] ∧
    (1770336000000 : Int) = 1770332400000 + 3600000 ∧
    dayNumberOf 1770336000000 = dayNumberOf 1770332400000 + 1 := by
  have h := c2_hourly_rollover 1770274800000 [23, 0] (by decide) (by decide)
    0 (by decide)
  have h2 := h.2.2 (by decide) (by decide)
  have e0 : (absTimes 1770274800000 [23, 0]).getD 0 0 = 1770332400000 := by decide
  have e1 : (absTimes 1770274800000 [23, 0]).getD 1 0 = 1770336000000 := by decide
  rw [e0, e1] at h2
  refine ⟨by decide, h2.1, h2.2⟩

/-- C9 counterexample: an NBS bulletin whose FHR offsets decrease (12 then
06) parses successfully, and the returned times sequence is strictly
decreasing — not monotonically non-decreasing. -/
theorem c9_monotone_counterexample :
    (parseNbmBulletin c9text "KFRG".data .nbs).map NbmParsedData.times
      = some [1770318000000, 1770296400000] ∧
    ¬ List.Chain' (· ≤ ·) [(1770318000000 : Int), 1770296400000] := by
  refine ⟨by decide, ?_⟩
  intro h
  rw [List.chain'_cons] at h
  exact absurd h.1 (by decide)

/-- C9 (amended): for every successful parse whose relative-mode offsets are
non-decreasing, or whose absolute-mode tokens are valid hours 00–23 (with the
issuance instant in the modelled civil range, year ≥ 100), the returned times
are monotonically non-decreasing. -/
theorem c9_axis_monotone (text station : Str) (pt : NbmProductType)
    (r : NbmParsedData) (ls : List Str)
    (hst : validStationB station = true)
    (hp : parseNbmBulletin text station pt = some r)
    (hsec : sectionLines text station pt = some ls)
    (hdateb : ∀ mo da yr hh mi, findDateIn (ls.headD []) = some (mo, da, yr, hh, mi) →
      -683003 ≤ dayNumberOf (jsDateUTC yr (mo - 1) da hh mi))
    (haxisb : ∀ rel toks, axisScan (ls.drop 1) = some (rel, toks) →
      (rel = true → List.Chain' (· ≤ ·) toks) ∧
      (rel = false → ∀ x ∈ toks, 0 ≤ x ∧ x ≤ 23)) :
    List.Chain' (· ≤ ·) r.times := by
  obtain ⟨mo, da, yr, hh, mi, rel, toks, hdate, haxis, hne, rfl⟩ := parse_build hp hsec
  have hb := hdateb mo da yr hh mi hdate
  have ha := haxisb rel toks haxis
  show List.Chain' (· ≤ ·)
    (if rel then relTimes (jsDateUTC yr (mo - 1) da hh mi) toks
     else absTimes (jsDateUTC yr (mo - 1) da hh mi) toks)
  cases rel with
  | true =>
    rw [if_pos rfl]
    have hch := ha.1 rfl
    unfold relTimes
    rw [List.chain'_map]
    exact hch.imp fun hab => by omega
  | false =>
    rw [if_neg (by simp)]
    rw [absTimes_eq _ _ hb]
    exact expectedAbs_chain toks _ _ (ha.2 rfl)

/-- Witness for C9's amended theorem on a concrete absolute-mode bulletin. -/
theorem c9_axis_monotone_witness :
    parseNbmBulletin twText "KFRG".data .nbh = some twResult ∧
    List.Chain' (· ≤ ·) twResult.times := by
  refine ⟨by decide, ?_⟩
  refine c9_axis_monotone twText "KFRG".data .nbh twResult twLines (by decide)
    (by decide) (by decide) ?_ ?_
  · intro mo da yr hh mi h
    have he : findDateIn (twLines.headD [])
        = some (2, 5, 2026, 7, 0) := by decide
    rw [he] at h
    simp only [Option.some.injEq, Prod.mk.injEq] at h
    obtain ⟨rfl, rfl, rfl, rfl, rfl⟩ := h
    decide
  · intro rel toks h
    have he : axisScan (twLines.drop 1) = some (false, [8, 9]) := by decide
    rw [he] at h
    simp only [Option.some.injEq, Prod.mk.injEq] at h
    obtain ⟨rfl, rfl⟩ := h
    constructor
    · intro hfalse
      cases hfalse
    · intro _ x hx
      simp at hx
      rcases hx with rfl | rfl <;> omega
